import Mathlib

/-!
Verification of the greeting-and-summation utility in src/utils.py.

Embedding of the Python values:
  - Python str values become Lean String values.
  - Python numbers become PyNum: either an arbitrary-precision integer
    (Python int, exact arithmetic) or a double-precision float.  Every
    finite binary64 value is a dyadic rational m * 2 ^ t, and the only
    operation the program performs on numbers is addition, under which
    dyadic rationals are closed; floats are therefore modelled exactly as
    dyadic rationals, with IEEE-754 round-to-nearest, ties-to-even
    rounding applied after every operation.
  - The builtin sum is a left-to-right fold with the integer start value
    0, exactly as CPython computes it; adding an int to a float first
    converts the int to a double (rounding it), as CPython does.
The model has two layers.  The total layer (pyAdd, pySum,
calculate_sum) is exact on the finite regime every test and example of
the program lives in.  The checked layer (pyAddChecked, pySumChecked,
calculate_sumChecked) additionally makes the one error path of the
program explicit: CPython raises OverflowError when an int whose
nearest double reaches 2 ^ 1024 is converted to float inside a mixed
int/float addition, and the checked functions return none exactly
there.  Rounding keeps the exponent unbounded above, so magnitudes at
or beyond 2 ^ 1024, where real doubles become infinite, appear as
their unbounded-exponent values; CPython raises no exception in pure
float arithmetic there either, so the error analysis is unaffected.
NaN does not arise: no subtraction of infinities occurs.
-/

/-- Bit length with explicit fuel: bitlenAux f n counts how often n can be
halved before reaching 0, as long as the fuel f suffices. -/
def bitlenAux : Nat → Nat → Nat
  | 0, _ => 0
  | f+1, n => if n = 0 then 0 else bitlenAux f (n / 2) + 1

/-- Bit length of a natural number: 0 for 0, and otherwise the unique b
with 2 ^ (b - 1) ≤ n < 2 ^ b.  Fuel n is always sufficient. -/
def bitlen (n : Nat) : Nat := bitlenAux n n

/-- A dyadic rational m * 2 ^ t: the exact value of a finite binary64
float.  The representation is not unique; the operations below always
return the canonical form (m odd, or m = 0 and t = 0). -/
structure Dyadic where
  m : Int
  t : Int
deriving DecidableEq

/-- Canonicalization with explicit fuel: divide the significand by 2 while
it is even, raising the exponent. -/
def canonAux : Nat → Int → Int → Dyadic
  | 0, m, t => ⟨m, t⟩
  | f+1, m, t => if m % 2 = 0 then canonAux f (m / 2) (t + 1) else ⟨m, t⟩

/-- Canonical form of a dyadic rational: zero becomes 0 * 2 ^ 0, any other
value gets an odd significand.  Fuel m.natAbs is always sufficient. -/
def canon (x : Dyadic) : Dyadic :=
  if x.m = 0 then ⟨0, 0⟩ else canonAux x.m.natAbs x.m x.t

/-- Round a dyadic rational to the nearest IEEE-754 binary64 value, ties
to even.  For a value of magnitude in [2 ^ e, 2 ^ (e + 1)) the grid
spacing is 2 ^ (e - 52), clamped below at 2 ^ (-1074) (subnormal range);
the overflow regime is outside the model. -/
def round64 (x : Dyadic) : Dyadic :=
  if x.m = 0 then ⟨0, 0⟩
  else
    let n := x.m.natAbs
    let e : Int := x.t + (bitlen n : Int) - 1
    let u := max (e - 52) (-1074)
    if u ≤ x.t then canon x
    else
      let s := (u - x.t).toNat
      let q := n / 2 ^ s
      let r := n % 2 ^ s
      let half := 2 ^ (s - 1)
      let q2 := if r < half then q
        else if half < r then q + 1
        else if q % 2 = 0 then q else q + 1
      canon ⟨x.m.sign * (q2 : Int), u⟩

/-- IEEE-754 binary64 addition: the exact sum of the two dyadic values,
rounded to the nearest representable value. -/
def fadd (a b : Dyadic) : Dyadic :=
  let t := min a.t b.t
  round64 ⟨a.m * 2 ^ (a.t - t).toNat + b.m * 2 ^ (b.t - t).toNat, t⟩

/-- Conversion of a Python int to a double, as CPython performs it when an
int meets a float in an addition: round to the nearest binary64 value. -/
def intToFloat (n : Int) : Dyadic := round64 ⟨n, 0⟩

/-- A Python number: an exact arbitrary-precision int or a binary64 float. -/
inductive PyNum where
  | int : Int → PyNum
  | float : Dyadic → PyNum
deriving DecidableEq

/-- Whether a Python number is a float (as opposed to an int). -/
def PyNum.isFloat : PyNum → Bool
  | .int _ => false
  | .float _ => true

/-- The exact value of a Python number as a dyadic rational. -/
def PyNum.toDy : PyNum → Dyadic
  | .int n => ⟨n, 0⟩
  | .float d => d

/-- The underlying integer of a Python int (0 on floats); used only to
state facts about all-integer lists. -/
def PyNum.toInt : PyNum → Int
  | .int n => n
  | .float _ => 0

/-- Exact value equality of two dyadic rationals, decided by
cross-scaling the significands to a common exponent. -/
def dyEq (a b : Dyadic) : Bool :=
  if a.t ≤ b.t then a.m == b.m * 2 ^ (b.t - a.t).toNat
  else a.m * 2 ^ (a.t - b.t).toNat == b.m

/-- Exact numeric equality of two Python numbers (the comparison Python
spells with ==): equality of the underlying exact values, ignoring the
int/float tag. -/
def numEq (a b : PyNum) : Bool := dyEq a.toDy b.toDy

/-- Exact order comparison of two dyadic rationals. -/
def dyLe (a b : Dyadic) : Bool :=
  if a.t ≤ b.t then decide (a.m ≤ b.m * 2 ^ (b.t - a.t).toNat)
  else decide (a.m * 2 ^ (a.t - b.t).toNat ≤ b.m)

/-- Exact difference of two dyadic rationals. -/
def dySub (a b : Dyadic) : Dyadic :=
  let t := min a.t b.t
  ⟨a.m * 2 ^ (a.t - t).toNat - b.m * 2 ^ (b.t - t).toNat, t⟩

/-- Absolute value of a dyadic rational. -/
def dyAbs (a : Dyadic) : Dyadic := ⟨(a.m.natAbs : Int), a.t⟩

/-- Approximate equality with relative tolerance 10 ^ (-9), the
comparison the test suite uses through pytest.approx: the absolute
difference is at most 10 ^ (-9) times the magnitude of the second value,
checked exactly as 10 ^ 9 * diff ≤ magnitude. -/
def approxEq1e9 (a b : Dyadic) : Bool :=
  dyLe ⟨(dyAbs (dySub a b)).m * 1000000000, (dyAbs (dySub a b)).t⟩ (dyAbs b)

/-- Python addition on numbers: int + int is exact integer addition; any
addition that involves a float converts the other operand to a double and
rounds the result, following IEEE-754 binary64 semantics. -/
def pyAdd : PyNum → PyNum → PyNum
  | .int a, .int b => .int (a + b)
  | .int a, .float b => .float (fadd (intToFloat a) b)
  | .float a, .int b => .float (fadd a (intToFloat b))
  | .float a, .float b => .float (fadd a b)

/-- The Python builtin sum: a left-to-right fold of + over the list,
starting from the integer 0. -/
def pySum (l : List PyNum) : PyNum := l.foldl pyAdd (PyNum.int 0)

/-- Embedding of calculate_sum from src/utils.py: returns sum(numbers). -/
def calculate_sum (numbers : List PyNum) : PyNum := pySum numbers

/-- Embedding of greet_user from src/utils.py: if the greeting is absent
(None) substitute "Hello", then format the f-string with the greeting,
a comma and a space, the name, and an exclamation mark. -/
def greet_user (name : String) (greeting : Option String := none) : String :=
  let g := match greeting with
    | none => "Hello"
    | some s => s
  g ++ ", " ++ name ++ "!"

/-- The double-precision value of a Python number: a float is taken as
is, an int is converted to the nearest double. -/
def pyToDouble : PyNum → Dyadic
  | .int n => intToFloat n
  | .float d => d

/-- Reference computation stated from the words of the specification, for
comparison with calculate_sum: the left-to-right accumulation fold of the
elements, starting from zero, under IEEE-754 double-precision addition,
every element taken as a double. -/
def sumIEEEFold (l : List PyNum) : Dyadic :=
  l.foldl (fun acc x => fadd acc (pyToDouble x)) ⟨0, 0⟩

/-- CPython conversion of an int to a double with its failure case made
explicit: float(n) raises OverflowError exactly when the value rounded
to nearest reaches 2 ^ 1024 in magnitude (the first magnitude at which
|n| is at least 2 ^ 1024 - 2 ^ 970).  The rounded value m * 2 ^ t is a
canonical dyadic, so its magnitude reaches 2 ^ 1024 exactly when its
floor base-2 logarithm, bitlen of |m| minus 1 plus t, is at least 1024.
none models the raised exception. -/
def intToFloatChecked (n : Int) : Option Dyadic :=
  if 1025 ≤ ((bitlen (round64 ⟨n, 0⟩).m.natAbs : Int) + (round64 ⟨n, 0⟩).t) then none
  else some (round64 ⟨n, 0⟩)

/-- Python addition with its failure case made explicit: adding an int
to a float first converts the int to a double, which raises
OverflowError (none) when the int is too large; all other cases are
total, as in CPython. -/
def pyAddChecked : PyNum → PyNum → Option PyNum
  | .int a, .int b => some (.int (a + b))
  | .int a, .float b => (intToFloatChecked a).map fun fa => .float (fadd fa b)
  | .float a, .int b => (intToFloatChecked b).map fun fb => .float (fadd a fb)
  | .float a, .float b => some (.float (fadd a b))

/-- The Python builtin sum with the OverflowError path made explicit:
the same left-to-right fold from the integer 0, where none models a
raised exception aborting the sum. -/
def pySumChecked (l : List PyNum) : Option PyNum :=
  l.foldlM pyAddChecked (PyNum.int 0)

/-- Embedding of calculate_sum from src/utils.py in the checked layer:
returns sum(numbers), or none when that call raises OverflowError. -/
def calculate_sumChecked (numbers : List PyNum) : Option PyNum :=
  pySumChecked numbers

/-- Value equality of a dyadic rational with itself. -/
theorem dyEq_self (d : Dyadic) : dyEq d d = true := by
  simp [dyEq]

/-- Folding Python addition over a list of floats from a float
accumulator is the IEEE-754 accumulation of their double values. -/
theorem foldl_pyAdd_float (xs : List PyNum) (d : Dyadic)
    (h : ∀ x ∈ xs, x.isFloat = true) :
    xs.foldl pyAdd (PyNum.float d) =
      PyNum.float (xs.foldl (fun acc x => fadd acc (pyToDouble x)) d) := by
  induction xs generalizing d with
  | nil => rfl
  | cons x rest ih =>
    cases x with
    | int n =>
      have hx := h (PyNum.int n) (List.mem_cons_self _ _)
      simp [PyNum.isFloat] at hx
    | float b =>
      have hrest : ∀ y ∈ rest, y.isFloat = true :=
        fun y hy => h y (List.mem_cons_of_mem _ hy)
      simp only [List.foldl_cons]
      exact ih (fadd d b) hrest

/-- Folding Python addition over a list of ints from an int accumulator
adds the underlying integers exactly. -/
theorem foldl_pyAdd_int (xs : List PyNum) (a : Int)
    (h : ∀ x ∈ xs, x.isFloat = false) :
    xs.foldl pyAdd (PyNum.int a) = PyNum.int (a + (xs.map PyNum.toInt).sum) := by
  induction xs generalizing a with
  | nil => simp
  | cons x rest ih =>
    cases x with
    | float b =>
      have hx := h (PyNum.float b) (List.mem_cons_self _ _)
      simp [PyNum.isFloat] at hx
    | int n =>
      have hrest : ∀ y ∈ rest, y.isFloat = false :=
        fun y hy => h y (List.mem_cons_of_mem _ hy)
      simp only [List.foldl_cons, List.map_cons, List.sum_cons]
      rw [show pyAdd (PyNum.int a) (PyNum.int n) = PyNum.int (a + n) from rfl]
      rw [ih (a + n) hrest, add_assoc]
      rfl

/-- On an all-integer list, calculate_sum is the exact integer sum. -/
theorem calculate_sum_all_int (xs : List PyNum)
    (h : ∀ x ∈ xs, x.isFloat = false) :
    calculate_sum xs = PyNum.int ((xs.map PyNum.toInt).sum) := by
  have := foldl_pyAdd_int xs 0 h
  simpa [calculate_sum, pySum] using this

/-- C1: for every name and every provided greeting word, including the
empty word, greet_user returns exactly the word, then a comma and a
space, then the name, then an exclamation mark; neither input is trimmed
or case-normalized, and a provided empty word is not replaced by the
default. -/
theorem greet_user_provided_word (name word : String) :
    greet_user name (some word) = word ++ ", " ++ name ++ "!" := rfl

/-- C2: when the greeting word is absent (None), greet_user substitutes
the default "Hello" and returns "Hello, " followed by the name and an
exclamation mark; in particular the empty name yields "Hello, !". -/
theorem greet_user_absent_word (name : String) :
    greet_user name none = "Hello, " ++ name ++ "!" ∧ greet_user "" none = "Hello, !" :=
  ⟨rfl, rfl⟩

/-- C3: counter-evidence for the claim that calculate_sum always returns
a float.  On the all-integer list of the docstring example the code
returns the integer 6 (so the documented doctest output 6.0 is wrong),
and a single-element integer list keeps the integer tag as well. -/
theorem calculate_sum_int_list_is_int :
    calculate_sum [PyNum.int 1, PyNum.int 2, PyNum.int 3] = PyNum.int 6 ∧
    (calculate_sum [PyNum.int 1, PyNum.int 2, PyNum.int 3]).isFloat = false ∧
    (calculate_sum [PyNum.int 42]).isFloat = false := by
  decide

/-- C4: counter-evidence for the claim that calculate_sum of the empty
sequence returns the float 0.0: the code returns the integer 0 (the
numeric value agrees, the documented float type does not). -/
theorem calculate_sum_empty_is_int_zero :
    calculate_sum [] = PyNum.int 0 ∧ (calculate_sum []).isFloat = false := ⟨rfl, rfl⟩

/-- C5: counterexample.  On the integer list with elements 2 ^ 53 and 1,
calculate_sum adds exactly and returns 2 ^ 53 + 1, while the
left-to-right IEEE-754 double-precision accumulation of the same
elements rounds to 2 ^ 53; the two values differ, so calculate_sum does
not in general equal the IEEE-754 fold. -/
theorem calcsum_ieee_fold_counterexample :
    calculate_sum [PyNum.int 9007199254740992, PyNum.int 1] = PyNum.int 9007199254740993 ∧
    sumIEEEFold [PyNum.int 9007199254740992, PyNum.int 1] = ⟨1, 53⟩ ∧
    numEq (calculate_sum [PyNum.int 9007199254740992, PyNum.int 1])
      (PyNum.float (sumIEEEFold [PyNum.int 9007199254740992, PyNum.int 1])) = false := by
  decide

/-- C5 (amended): on every sequence all of whose elements are floats,
calculate_sum has exactly the value of the left-to-right accumulation
fold of its elements, starting from zero, under IEEE-754
double-precision addition; integer elements are instead added with exact
integer arithmetic, which can differ from the IEEE-754 result. -/
theorem calculate_sum_float_list_is_ieee_fold (xs : List PyNum)
    (h : ∀ x ∈ xs, x.isFloat = true) :
    numEq (calculate_sum xs) (PyNum.float (sumIEEEFold xs)) = true := by
  cases xs with
  | nil => rfl
  | cons x rest =>
    cases x with
    | int n =>
      have hx := h (PyNum.int n) (List.mem_cons_self _ _)
      simp [PyNum.isFloat] at hx
    | float b =>
      have hrest : ∀ y ∈ rest, y.isFloat = true :=
        fun y hy => h y (List.mem_cons_of_mem _ hy)
      have h1 : calculate_sum (PyNum.float b :: rest)
          = PyNum.float (sumIEEEFold (PyNum.float b :: rest)) := by
        show (PyNum.float b :: rest).foldl pyAdd (PyNum.int 0) = _
        rw [List.foldl_cons]
        rw [show pyAdd (PyNum.int 0) (PyNum.float b)
          = PyNum.float (fadd (⟨0, 0⟩ : Dyadic) b) from rfl]
        rw [foldl_pyAdd_float rest (fadd ⟨0, 0⟩ b) hrest]
        rfl
      rw [h1]
      exact dyEq_self _

/-- Witness for the amended C5 theorem at a concrete two-element float
list. -/
theorem calculate_sum_float_list_is_ieee_fold_witness :
    numEq (calculate_sum [PyNum.float ⟨85, -1⟩, PyNum.float ⟨1, 1⟩])
      (PyNum.float (sumIEEEFold [PyNum.float ⟨85, -1⟩, PyNum.float ⟨1, 1⟩])) = true :=
  calculate_sum_float_list_is_ieee_fold
    [PyNum.float ⟨85, -1⟩, PyNum.float ⟨1, 1⟩] (by decide)

/-- C6: counterexample.  The list with float elements 10 ^ 20, 1 and
-(10 ^ 20) sums to 0.0 (adding 1 to 10 ^ 20 rounds back to 10 ^ 20),
while its permutation that adds the two large values first sums to 1.0;
the two results are not within relative tolerance 10 ^ (-9) of each
other, so permutations are not sum-equivalent up to that tolerance. -/
theorem calcsum_perm_tolerance_counterexample :
    List.Perm
      [PyNum.float ⟨95367431640625, 20⟩, PyNum.float ⟨1, 0⟩,
        PyNum.float ⟨-95367431640625, 20⟩]
      [PyNum.float ⟨95367431640625, 20⟩, PyNum.float ⟨-95367431640625, 20⟩,
        PyNum.float ⟨1, 0⟩] ∧
    calculate_sum [PyNum.float ⟨95367431640625, 20⟩, PyNum.float ⟨1, 0⟩,
      PyNum.float ⟨-95367431640625, 20⟩] = PyNum.float ⟨0, 0⟩ ∧
    calculate_sum [PyNum.float ⟨95367431640625, 20⟩, PyNum.float ⟨-95367431640625, 20⟩,
      PyNum.float ⟨1, 0⟩] = PyNum.float ⟨1, 0⟩ ∧
    approxEq1e9
      (calculate_sum [PyNum.float ⟨95367431640625, 20⟩, PyNum.float ⟨1, 0⟩,
        PyNum.float ⟨-95367431640625, 20⟩]).toDy
      (calculate_sum [PyNum.float ⟨95367431640625, 20⟩, PyNum.float ⟨-95367431640625, 20⟩,
        PyNum.float ⟨1, 0⟩]).toDy = false := by
  decide

/-- C6 (amended): on all-integer sequences calculate_sum is exactly
invariant under permutation; on float sequences, reordering can change
the result by far more than a 10 ^ (-9) relative tolerance through
catastrophic cancellation. -/
theorem calculate_sum_perm_invariant_ints (xs ys : List PyNum)
    (hperm : List.Perm xs ys) (h : ∀ x ∈ xs, x.isFloat = false) :
    calculate_sum xs = calculate_sum ys := by
  have hys : ∀ y ∈ ys, y.isFloat = false :=
    fun y hy => h y (hperm.mem_iff.mpr hy)
  rw [calculate_sum_all_int xs h, calculate_sum_all_int ys hys]
  congr 1
  exact List.Perm.sum_eq (hperm.map PyNum.toInt)

/-- Witness for the amended C6 theorem at a concrete transposition. -/
theorem calculate_sum_perm_invariant_ints_witness :
    calculate_sum [PyNum.int 1, PyNum.int 2] = calculate_sum [PyNum.int 2, PyNum.int 1] :=
  calculate_sum_perm_invariant_ints
    [PyNum.int 1, PyNum.int 2] [PyNum.int 2, PyNum.int 1] (by decide) (by decide)

/-- Where the checked conversion succeeds it returns the same double as
the total conversion. -/
theorem intToFloatChecked_agrees (n : Int) (d : Dyadic)
    (h : intToFloatChecked n = some d) : intToFloat n = d := by
  unfold intToFloatChecked at h
  split at h
  · cases h
  · exact Option.some.inj h

/-- Where checked Python addition succeeds it returns the same number as
total Python addition. -/
theorem pyAddChecked_agrees (a b c : PyNum) (h : pyAddChecked a b = some c) :
    pyAdd a b = c := by
  cases a with
  | int m =>
    cases b with
    | int n => exact Option.some.inj h
    | float d =>
      cases hf : intToFloatChecked m with
      | none =>
        simp only [pyAddChecked, hf, Option.map_none'] at h
        exact Option.noConfusion h
      | some fa =>
        simp only [pyAddChecked, hf, Option.map_some', Option.some.injEq] at h
        rw [show pyAdd (PyNum.int m) (PyNum.float d)
          = PyNum.float (fadd (intToFloat m) d) from rfl]
        rw [intToFloatChecked_agrees m fa hf]
        exact h
  | float d =>
    cases b with
    | float e => exact Option.some.inj h
    | int n =>
      cases hf : intToFloatChecked n with
      | none =>
        simp only [pyAddChecked, hf, Option.map_none'] at h
        exact Option.noConfusion h
      | some fb =>
        simp only [pyAddChecked, hf, Option.map_some', Option.some.injEq] at h
        rw [show pyAdd (PyNum.float d) (PyNum.int n)
          = PyNum.float (fadd d (intToFloat n)) from rfl]
        rw [intToFloatChecked_agrees n fb hf]
        exact h

/-- Where the checked sum succeeds it returns the same number as the
total model: the two layers agree everywhere no exception is raised. -/
theorem calculate_sumChecked_agrees (xs : List PyNum) :
    ∀ (acc v : PyNum), xs.foldlM pyAddChecked acc = some v →
      xs.foldl pyAdd acc = v := by
  induction xs with
  | nil =>
    intro acc v h
    exact Option.some.inj h
  | cons x rest ih =>
    intro acc v h
    rw [List.foldlM_cons] at h
    cases hx : pyAddChecked acc x with
    | none => rw [hx] at h; cases h
    | some a =>
      rw [hx] at h
      rw [List.foldl_cons, pyAddChecked_agrees acc x a hx]
      exact ih a v (by simpa using h)

/-- The checked sum of an all-integer list always succeeds, with an
integer result: int + int never converts and never raises. -/
theorem foldlM_pyAddChecked_int (xs : List PyNum) :
    ∀ a : Int, (∀ x ∈ xs, x.isFloat = false) →
      ∃ b : Int, xs.foldlM pyAddChecked (PyNum.int a) = some (PyNum.int b) := by
  induction xs with
  | nil => exact fun a _ => ⟨a, rfl⟩
  | cons x rest ih =>
    intro a h
    cases x with
    | float d =>
      have hx := h (PyNum.float d) (List.mem_cons_self _ _)
      simp [PyNum.isFloat] at hx
    | int n =>
      have hrest : ∀ y ∈ rest, y.isFloat = false :=
        fun y hy => h y (List.mem_cons_of_mem _ hy)
      obtain ⟨b, hb⟩ := ih (a + n) hrest
      refine ⟨b, ?_⟩
      rw [List.foldlM_cons]
      rw [show pyAddChecked (PyNum.int a) (PyNum.int n)
        = some (PyNum.int (a + n)) from rfl]
      simpa using hb

/-- The checked sum never raises once the accumulator is a float and all
remaining elements are floats: float + float never converts. -/
theorem foldlM_pyAddChecked_float (xs : List PyNum) :
    ∀ d : Dyadic, (∀ x ∈ xs, x.isFloat = true) →
      ∃ e : Dyadic, xs.foldlM pyAddChecked (PyNum.float d) = some (PyNum.float e) := by
  induction xs with
  | nil => exact fun d _ => ⟨d, rfl⟩
  | cons x rest ih =>
    intro d h
    cases x with
    | int n =>
      have hx := h (PyNum.int n) (List.mem_cons_self _ _)
      simp [PyNum.isFloat] at hx
    | float b =>
      have hrest : ∀ y ∈ rest, y.isFloat = true :=
        fun y hy => h y (List.mem_cons_of_mem _ hy)
      obtain ⟨e, he⟩ := ih (fadd d b) hrest
      refine ⟨e, ?_⟩
      rw [List.foldlM_cons]
      rw [show pyAddChecked (PyNum.float d) (PyNum.float b)
        = some (PyNum.float (fadd d b)) from rfl]
      simpa using he

set_option maxRecDepth 100000 in
/-- C7: counterexample.  calculate_sum can raise: on the numeric
sequence [10 ^ 400, 1.0] (the int written as 10 ^ 200 * 10 ^ 200) the
running integer total 10 ^ 400 meets the
float and CPython raises OverflowError converting it to a double, since
its nearest double reaches 2 ^ 1024; the checked embedding returns none
(a raised exception), so the functions are not error-free on every
numeric sequence. -/
theorem calcsum_overflow_counterexample :
    calculate_sumChecked [PyNum.int ((10 ^ 200 * 10 ^ 200 : ℕ) : Int), PyNum.float ⟨1, 0⟩] = none := by
  decide

/-- C7 (amended): greet_user is total for every name and optional
greeting, and calculate_sum never raises on any all-integer sequence
(of any magnitude, including the empty sequence) and on any all-float
sequence; only a mixed sequence can raise, through OverflowError, when
an int whose nearest double reaches 2 ^ 1024 is converted to float. -/
theorem greet_total_and_sum_no_overflow (name : String) (greeting : Option String)
    (xs : List PyNum)
    (h : (∀ x ∈ xs, x.isFloat = false) ∨ (∀ x ∈ xs, x.isFloat = true)) :
    (∃ s : String, greet_user name greeting = s) ∧
    ∃ v : PyNum, calculate_sumChecked xs = some v := by
  refine ⟨⟨greet_user name greeting, rfl⟩, ?_⟩
  cases h with
  | inl hint =>
    obtain ⟨b, hb⟩ := foldlM_pyAddChecked_int xs 0 hint
    exact ⟨PyNum.int b, hb⟩
  | inr hfl =>
    cases xs with
    | nil => exact ⟨PyNum.int 0, rfl⟩
    | cons x rest =>
      cases x with
      | int n =>
        have hx := hfl (PyNum.int n) (List.mem_cons_self _ _)
        simp [PyNum.isFloat] at hx
      | float b =>
        have hrest : ∀ y ∈ rest, y.isFloat = true :=
          fun y hy => hfl y (List.mem_cons_of_mem _ hy)
        obtain ⟨e, he⟩ := foldlM_pyAddChecked_float rest (fadd ⟨0, 0⟩ b) hrest
        refine ⟨PyNum.float e, ?_⟩
        show (PyNum.float b :: rest).foldlM pyAddChecked (PyNum.int 0) = _
        rw [List.foldlM_cons]
        rw [show pyAddChecked (PyNum.int 0) (PyNum.float b)
          = some (PyNum.float (fadd ⟨0, 0⟩ b)) from rfl]
        simpa using he

/-- Witness for the amended C7 theorem at concrete inputs from both
sides of the hypothesis domain. -/
theorem greet_total_and_sum_no_overflow_witness :
    (∃ s : String, greet_user "Alice" none = s) ∧
    ∃ v : PyNum, calculate_sumChecked [PyNum.int 1, PyNum.int 2] = some v :=
  greet_total_and_sum_no_overflow "Alice" none
    [PyNum.int 1, PyNum.int 2] (Or.inl (by decide))

/-- C8: purity as observable behavior: both functions are value-to-value
maps, so two calls with equal inputs return equal results; the embedding
of the source has no mutable state, and the argument list is consumed
without modification. -/
theorem greet_and_sum_deterministic (n1 n2 : String) (g1 g2 : Option String)
    (xs1 xs2 : List PyNum) (hn : n1 = n2) (hg : g1 = g2) (hxs : xs1 = xs2) :
    greet_user n1 g1 = greet_user n2 g2 ∧ calculate_sum xs1 = calculate_sum xs2 := by
  subst hn; subst hg; subst hxs
  exact ⟨rfl, rfl⟩

/-- Witness for the C8 theorem at concrete equal inputs. -/
theorem greet_and_sum_deterministic_witness :
    greet_user "Alice" none = greet_user "Alice" none ∧
    calculate_sum [PyNum.int 1] = calculate_sum [PyNum.int 1] :=
  greet_and_sum_deterministic "Alice" "Alice" none none
    [PyNum.int 1] [PyNum.int 1] rfl rfl rfl

/-- C9: passing the default greeting word "Hello" explicitly is
indistinguishable from leaving the greeting absent. -/
theorem greet_user_explicit_default (name : String) :
    greet_user name (some "Hello") = greet_user name none := rfl

/-- C10: on all-integer sequences, where the arithmetic of the code is
exact, calculate_sum is a monoid homomorphism from list concatenation to
addition: the sum of a concatenation is the Python sum of the two sums. -/
theorem calculate_sum_append_hom (xs ys : List PyNum)
    (hxs : ∀ x ∈ xs, x.isFloat = false) (hys : ∀ y ∈ ys, y.isFloat = false) :
    calculate_sum (xs ++ ys) = pyAdd (calculate_sum xs) (calculate_sum ys) := by
  have hall : ∀ x ∈ xs ++ ys, x.isFloat = false := by
    intro x hx
    rcases List.mem_append.mp hx with hmem | hmem
    exacts [hxs x hmem, hys x hmem]
  rw [calculate_sum_all_int (xs ++ ys) hall, calculate_sum_all_int xs hxs,
    calculate_sum_all_int ys hys]
  rw [show pyAdd (PyNum.int ((xs.map PyNum.toInt).sum)) (PyNum.int ((ys.map PyNum.toInt).sum))
    = PyNum.int ((xs.map PyNum.toInt).sum + (ys.map PyNum.toInt).sum) from rfl]
  rw [List.map_append, List.sum_append]

/-- Witness for the C10 theorem at concrete integer lists. -/
theorem calculate_sum_append_hom_witness :
    calculate_sum ([PyNum.int 1, PyNum.int 2] ++ [PyNum.int 3]) =
      pyAdd (calculate_sum [PyNum.int 1, PyNum.int 2]) (calculate_sum [PyNum.int 3]) :=
  calculate_sum_append_hom [PyNum.int 1, PyNum.int 2] [PyNum.int 3] (by decide) (by decide)
